import Mathlib

/-!
Verification of the folder-tree generator
(`Store_Old_Files/Folder_Tree_Claude_shorter.py`).

The filesystem is modelled as an inductive tree: a file carries a name and a
byte size; a directory carries a name, an accessibility flag (false models a
directory whose child enumeration raises OSError or PermissionError) and its
list of children in enumeration order.  The generator's mutable object state
(`self.tree_lines`, `self.stats`) is modelled by explicit return values: each
traversal function returns the lines it appends together with the statistics
deltas it adds, in order; since the Python code only ever appends lines and
adds to counters, this is equivalent.

Machine integers are modelled as `Nat` (sizes and counters are non-negative
and never overflow in Python).  The float pipeline of `format_size` is
modelled by exact integer arithmetic; this agrees with the Python code for
all sizes below 2^53, where division of a double by 1024 is exact.
-/

namespace FolderTree

/-- A filesystem entry.  `dir name accessible children`: `accessible = false`
models a directory whose enumeration fails with OSError or PermissionError. -/
inductive FSEntry where
  | file (name : String) (size : Nat)
  | dir (name : String) (accessible : Bool) (children : List FSEntry)

mutual
def FSEntry.decEq : (a b : FSEntry) → Decidable (a = b)
  | .file n s, .file n' s' =>
    if h : n = n' ∧ s = s' then isTrue (by rw [h.1, h.2])
    else isFalse (by intro he; cases he; exact h ⟨rfl, rfl⟩)
  | .file _ _, .dir _ _ _ => isFalse nofun
  | .dir _ _ _, .file _ _ => isFalse nofun
  | .dir n o cs, .dir n' o' cs' =>
    match FSEntry.decEqList cs cs' with
    | isTrue hcs =>
      if h : n = n' ∧ o = o' then isTrue (by rw [h.1, h.2, hcs])
      else isFalse (by intro he; cases he; exact h ⟨rfl, rfl⟩)
    | isFalse hcs => isFalse (by intro he; cases he; exact hcs rfl)

def FSEntry.decEqList : (a b : List FSEntry) → Decidable (a = b)
  | [], [] => isTrue rfl
  | [], _ :: _ => isFalse nofun
  | _ :: _, [] => isFalse nofun
  | e :: es, e' :: es' =>
    match FSEntry.decEq e e', FSEntry.decEqList es es' with
    | isTrue h1, isTrue h2 => isTrue (by rw [h1, h2])
    | isFalse h1, _ => isFalse (by intro he; cases he; exact h1 rfl)
    | _, isFalse h2 => isFalse (by intro he; cases he; exact h2 rfl)
end

instance : DecidableEq FSEntry := FSEntry.decEq

/-- Name of an entry (models `Path.name`). -/
def FSEntry.name : FSEntry → String
  | .file n _ => n
  | .dir n _ _ => n

/-- Models `Path.is_file()` for entries of the model. -/
def isFileB : FSEntry → Bool
  | .file _ _ => true
  | .dir _ _ _ => false

/-- Models `Path.is_dir()` for entries of the model. -/
def isDirB : FSEntry → Bool
  | .file _ _ => false
  | .dir _ _ _ => true

/-- Models `directory.iterdir()`: `none` when the enumeration raises
(OSError / PermissionError, and also NotADirectoryError on a plain file),
otherwise the list of children. -/
def listChildren : FSEntry → Option (List FSEntry)
  | .file _ _ => none
  | .dir _ ok cs => if ok then some cs else none

/-- The statistics accumulator `self.stats`. -/
structure Stats where
  folders : Nat
  files : Nat
  total_size : Nat
  truncated_folders : Nat
deriving DecidableEq, Repr

def Stats.zero : Stats := ⟨0, 0, 0, 0⟩

def Stats.add (a b : Stats) : Stats :=
  ⟨a.folders + b.folders, a.files + b.files,
   a.total_size + b.total_size, a.truncated_folders + b.truncated_folders⟩

theorem Stats.zero_add (s : Stats) : Stats.add Stats.zero s = s := by
  cases s; simp [Stats.add, Stats.zero]

theorem Stats.add_zero (s : Stats) : Stats.add s Stats.zero = s := by
  cases s; simp [Stats.add, Stats.zero]

theorem Stats.add_assoc (a b c : Stats) :
    Stats.add (Stats.add a b) c = Stats.add a (Stats.add b c) := by
  cases a; cases b; cases c; simp [Stats.add, Nat.add_assoc]

/-- The four drawing glyph strings of a style from `TreeStyle.STYLES`
(the `horizontal` glyph is defined by the source but never used). -/
structure Style where
  vertical : String
  horizontal : String
  junction : String
  corner : String
  space : String

/-- The `simple` entry of `TreeStyle.STYLES`. -/
def simpleStyle : Style :=
  { vertical := "│ ", horizontal := "─ ", junction := "├─ ",
    corner := "└─ ", space := "  " }

/-- `FileTypeIcons.SIMPLE`, as an association list in insertion order. -/
def SIMPLE_ICONS : List (String × String) :=
  [(".txt", "T"), (".md", "M"), (".pdf", "P"), (".doc", "D"), (".docx", "D"),
   (".jpg", "I"), (".jpeg", "I"), (".png", "I"), (".gif", "G"), (".svg", "S"),
   (".mp3", "A"), (".wav", "A"), (".mp4", "V"), (".avi", "V"),
   (".py", "P"), (".js", "J"), (".html", "H"), (".css", "C"),
   (".zip", "Z"), (".rar", "R"),
   ("folder", "+"), ("file", "-"), ("unknown", "?")]

/-- Dictionary lookup, models `dict.get(key)` returning `None` when absent. -/
def dictGet : List (String × String) → String → Option String
  | [], _ => none
  | (k, v) :: rest, key => if k = key then some v else dictGet rest key

/-- Models `dict.get(key, default)`. -/
def dictGetD (d : List (String × String)) (key dflt : String) : String :=
  match dictGet d key with
  | some v => v
  | none => dflt

/-- The whole configuration of one generation run: the constructor arguments
of `FolderTreeGenerator` (style and icon set already resolved to their
tables, `max_depth`, `max_files_per_folder`) together with the keyword
arguments of `generate_tree`. -/
structure Config where
  style : Style
  icon_set : List (String × String)
  max_depth : Nat
  max_files_per_folder : Option Nat
  show_size : Bool
  show_hidden : Bool
  sort_dirs_first : Bool
  include_categories : Option (List String)
  exclude_patterns : Option (List String)

/-- `self.file_categories`: category name to extension set. -/
def file_categories : String → List String
  | "documents" => [".txt", ".md", ".pdf", ".doc", ".docx", ".rtf", ".odt"]
  | "images" => [".jpg", ".jpeg", ".png", ".gif", ".bmp", ".svg", ".ico", ".tiff", ".webp"]
  | "audio" => [".mp3", ".wav", ".flac", ".aac", ".ogg", ".m4a", ".wma"]
  | "video" => [".mp4", ".avi", ".mkv", ".mov", ".wmv", ".flv", ".webm", ".m4v"]
  | "code" => [".py", ".js", ".html", ".css", ".php", ".java", ".cpp", ".c", ".cs", ".rb"]
  | "archives" => [".zip", ".rar", ".7z", ".tar", ".gz", ".bz2", ".xz"]
  | _ => []

/-- The `key_dirs` set literal of `is_key_directory` (the duplicate literal
element `views` of the Python set display collapses, as in Python). -/
def key_dirs : List String :=
  ["src", "source", "lib", "libs", "app", "apps", "components",
   "pages", "views", "models", "controllers", "services", "utils",
   "helpers", "config", "configs", "settings", "static", "assets",
   "resources", "public", "private", "data", "database", "db",
   "migrations", "schemas", "api", "apis", "routes", "middleware",
   "templates", "layouts", "partials", "includes",
   "tests", "test", "spec", "specs", "docs", "documentation",
   "examples", "samples", "demos", "tutorials", "guides",
   "scripts", "tools", "bin", "build", "dist", "output",
   "notebooks", "helpfiles"]

/-- Models `str.lower()` (ASCII case folding, as `Char.toLower`; all names
appearing in the claims are ASCII). -/
def strLower (s : String) : String := ⟨s.data.map Char.toLower⟩

/-- `is_key_directory`: membership of the lowercased name in `key_dirs`. -/
def is_key_directory (dir_name : String) : Bool :=
  decide (strLower dir_name ∈ key_dirs)

/-- Models `pathlib.PurePath.suffix`: the extension of the name from its last
dot, empty when the last dot is absent, leading, or trailing. -/
def pathSuffix (name : String) : String :=
  let cs := name.data
  let len := cs.length
  let tail := (cs.reverse.takeWhile (fun c => c ≠ '.')).length
  if tail + 1 < len ∧ 0 < tail then ⟨cs.drop (len - tail - 1)⟩ else ""

/-- `get_file_icon`: icon for a directory (key or plain, with the hard-coded
emoji fallbacks) or for a file by lowercased extension. -/
def get_file_icon (cfg : Config) (e : FSEntry) (is_key_folder : Bool) : String :=
  match e with
  | .dir _ _ _ =>
    if is_key_folder then dictGetD cfg.icon_set "key_folder" "📂"
    else dictGetD cfg.icon_set "folder" "📁"
  | .file n _ =>
    dictGetD cfg.icon_set (strLower (pathSuffix n)) (dictGetD cfg.icon_set "file" "📄")

/-- Substring test, models the Python expression `pattern in name`. -/
def isSubstring (pat s : String) : Bool := decide (pat.data <:+: s.data)

/-- `should_include_file`: the exclude-pattern loop (any pattern that is a
substring of the name excludes the entry), then the category rule (only for
files, and only when the category set is truthy, i.e. present and
non-empty). -/
def should_include_file (include_categories : Option (List String))
    (exclude_patterns : Option (List String)) (e : FSEntry) : Bool :=
  if (exclude_patterns.getD []).any (fun p => isSubstring p e.name) then
    false
  else
    match include_categories with
    | some cats =>
      if !cats.isEmpty && !isDirB e then
        cats.any (fun c => decide (strLower (pathSuffix e.name) ∈ file_categories c))
      else true
    | none => true

/-- Models `name.startswith(".")`. -/
def strStartsWithDot (s : String) : Bool :=
  match s.data with
  | [] => false
  | c :: _ => c = '.'

/-- The `while size_bytes >= 1024 and i < len(size_names) - 1` loop of
`format_size`, tracking the floored scaled value (the loop condition
`x >= 1024` agrees between the exact value and its floor) and the unit
index; the structural fuel 5 strictly bounds the at most 4 iterations. -/
def size_loop : Nat → Nat → Nat → Nat
  | 0, _, i => i
  | fuel + 1, size, i =>
    if 1024 ≤ size ∧ i < 4 then size_loop fuel (size / 1024) (i + 1) else i

/-- Round-half-even of the rational `num / den` (the rounding Python's
`f"{x:.1f}"` applies to the exact binary value of `x`, here used with
`num = 10 * size` and `den = 1024 ^ i`, a quotient the float pipeline of
the source computes exactly for sizes below 2^53). -/
def roundHalfEvenDiv (num den : Nat) : Nat :=
  let q := num / den
  let r := num % den
  if 2 * r < den then q
  else if den < 2 * r then q + 1
  else if q % 2 = 0 then q else q + 1

def size_names : List String := ["B", "KB", "MB", "GB", "TB"]

/-- `format_size`: zero is special-cased, otherwise the value is divided by
1024 until it drops below 1024 or the unit TB is reached, and printed with
one decimal digit. -/
def format_size (size_bytes : Nat) : String :=
  if size_bytes = 0 then "0 B"
  else
    let i := size_loop 5 size_bytes 0
    let n10 := roundHalfEvenDiv (10 * size_bytes) (1024 ^ i)
    toString (n10 / 10) ++ "." ++ toString (n10 % 10) ++ " " ++ size_names.getD i ""

/-- Strict lexicographic order on character lists by code point: the
comparison Python uses on `str`. -/
def charListLT : List Char → List Char → Bool
  | [], [] => false
  | [], _ :: _ => true
  | _ :: _, [] => false
  | a :: as, b :: bs =>
    if a < b then true else if b < a then false else charListLT as bs

/-- The strict order on the sort keys of `_build_tree`:
with `sort_dirs_first` the key is the pair `(is_file, name.lower())`
(Python compares such tuples lexicographically, with False before True),
otherwise just `name.lower()`. -/
def entryKeyLT (sort_dirs_first : Bool) (a b : FSEntry) : Bool :=
  if sort_dirs_first then
    (!isFileB a && isFileB b) ||
      (isFileB a == isFileB b &&
        charListLT (strLower a.name).data (strLower b.name).data)
  else
    charListLT (strLower a.name).data (strLower b.name).data

/-- The non-strict companion of `entryKeyLT`. -/
def entryLE (sort_dirs_first : Bool) (a b : FSEntry) : Bool :=
  !entryKeyLT sort_dirs_first b a

/-- Models `entries.sort(key=...)`: Python's sort is a stable sort by key,
and a stable insertion sort with the total preorder `entryLE` produces the
same list (the unique permutation that is sorted by the key and keeps
key-equal entries in enumeration order). -/
def sortEntries (sort_dirs_first : Bool) (l : List FSEntry) : List FSEntry :=
  List.insertionSort (fun a b => entryLE sort_dirs_first a b = true) l

/-- The per-level data computed by `_build_tree` lines 265-293: filtering,
sorting, partitioning into directories and files, and file-count
truncation.  `files` is the pre-truncation file list (so `files.length` is
the number of visible files of the level). -/
structure Level where
  dirs : List FSEntry
  displayedFiles : List FSEntry
  files : List FSEntry
  filesTruncated : Bool
  hiddenCount : Nat

/-- `entries_to_show = directories + displayed_files`. -/
def Level.toShow (L : Level) : List FSEntry := L.dirs ++ L.displayedFiles

/-- Lines 265-275 of the source: the hidden-file filter, the
`should_include_file` filter and the sort, i.e. the visible entries of a
level in sorted order. -/
def visibleEntries (cfg : Config) (entries : List FSEntry) : List FSEntry :=
  let e1 := if cfg.show_hidden then entries
            else entries.filter (fun e => !(strStartsWithDot e.name))
  let e2 := e1.filter (should_include_file cfg.include_categories cfg.exclude_patterns)
  sortEntries cfg.sort_dirs_first e2

/-- Lines 265-293 of the source: hidden-file filter, `should_include_file`
filter, sort, partition, and the truncation guard
`if self.max_files_per_folder and len(files) > self.max_files_per_folder`
(a Python truthiness test, so a limit of 0 behaves like no limit). -/
def processLevel (cfg : Config) (entries : List FSEntry) : Level :=
  let sorted := visibleEntries cfg entries
  let dirs := sorted.filter (fun e => isDirB e)
  let files := sorted.filter (fun e => isFileB e)
  match cfg.max_files_per_folder with
  | some n =>
    if n ≠ 0 ∧ files.length > n then
      ⟨dirs, files.take n, files, true, files.length - n⟩
    else
      ⟨dirs, files, files, false, 0⟩
  | none => ⟨dirs, files, files, false, 0⟩

/-- The statistics increments of lines 311-317 for a single displayed
entry: a directory adds one folder, a file adds one file and its size. -/
def entryStats : FSEntry → Stats
  | .dir _ _ _ => ⟨1, 0, 0, 0⟩
  | .file _ sz => ⟨0, 1, sz, 0⟩

/-- Lines 298-320: the formatted display line of one entry (glyph chosen by
last-sibling status, icon, name, trailing slash for directories, optional
size suffix for files). -/
def lineFor (cfg : Config) (pre : String) (isLast : Bool) (e : FSEntry) : String :=
  let curPre := if isLast then pre ++ cfg.style.corner else pre ++ cfg.style.junction
  let is_key := if isDirB e then is_key_directory e.name else false
  let icon := get_file_icon cfg e is_key
  let base := curPre ++ icon ++ " " ++ e.name
  match e with
  | .dir _ _ _ => base ++ "/"
  | .file _ sz =>
    if cfg.show_size then base ++ " (" ++ format_size sz ++ ")" else base

/-- Lines 330-333: the synthetic truncation-marker line. -/
def truncLine (cfg : Config) (pre : String) (shown : List FSEntry) (hidden : Nat) : String :=
  (if shown.length > 0 then pre ++ cfg.style.corner else pre ++ cfg.style.junction) ++
    "... (" ++ toString hidden ++ " more files)"

/-- The `for i, entry in enumerate(entries_to_show)` loop of `_build_tree`
(lines 295-327), abstracted over the recursive call `recur` made for
subdirectories.  An entry is last exactly when it ends the list and no
truncation marker follows. -/
def build_tree_loop (cfg : Config) (recur : FSEntry → String → List String × Stats) :
    Bool → String → List FSEntry → List String × Stats
  | _, _, [] => ([], Stats.zero)
  | files_truncated, pre, e :: rest =>
    let isLast := rest.isEmpty && !files_truncated
    let nextPre := pre ++ (if isLast then cfg.style.space else cfg.style.vertical)
    let sub := if isDirB e then recur e nextPre else ([], Stats.zero)
    let tail := build_tree_loop cfg recur files_truncated pre rest
    (lineFor cfg pre isLast e :: (sub.1 ++ tail.1),
     Stats.add (entryStats e) (Stats.add sub.2 tail.2))

/-- `_build_tree`.  The source guards on `depth >= self.max_depth` and
recurses with `depth + 1`; the model passes the remaining depth budget
`fuel = max_depth - depth`, so the guard is `fuel = 0` and recursion gets
`fuel - 1`.  An enumeration failure (line 260-263) returns with no output
and no statistics change. -/
def buildTree (cfg : Config) : Nat → FSEntry → String → List String × Stats
  | 0, _, _ => ([], Stats.zero)
  | f + 1, e, pre =>
    match listChildren e with
    | none => ([], Stats.zero)
    | some cs =>
      let L := processLevel cfg cs
      let r := build_tree_loop cfg (buildTree cfg f) L.filesTruncated pre L.toShow
      if L.filesTruncated then
        (r.1 ++ [truncLine cfg pre L.toShow L.hiddenCount],
         { r.2 with truncated_folders := r.2.truncated_folders + 1 })
      else r

mutual
/-- Total size of the files reachable below an entry, models the
`root.rglob('*')` sum of line 239 (pathlib's glob machinery silently skips
directories it cannot enumerate). -/
def reachSize : FSEntry → Nat
  | .file _ sz => sz
  | .dir _ ok cs => if ok then reachSizeList cs else 0

def reachSizeList : List FSEntry → Nat
  | [] => 0
  | e :: es => reachSize e + reachSizeList es
end

/-- Lines 234-242: the root's own line.  The root is always passed
`is_key_folder=True`, always gets a trailing slash, and gets a size suffix
only when `show_size` is set and it is a directory. -/
def rootLine (cfg : Config) (root : FSEntry) : String :=
  let icon := get_file_icon cfg root true
  let base := icon ++ " " ++ root.name ++ "/"
  if cfg.show_size && isDirB root then
    base ++ " (" ++ format_size (reachSize root) ++ ")"
  else base

/-- The observable outcome of one `generate_tree` call: the returned value
or raised FileNotFoundError, plus the object state `self.tree_lines` and
`self.stats` as left by the call. -/
structure GenResult where
  result : Except String (List String)
  tree_lines : List String
  stats : Stats

/-- `generate_tree`.  The caller's path resolves either to nothing
(`root = none`: the existence check fails and FileNotFoundError is raised
after the state reset) or to the entry `root`.  On success the root line is
emitted, the folder counter starts at 1, and `_build_tree` runs from depth
0, i.e. with full budget `max_depth`. -/
def generate_tree (cfg : Config) (root_path : String) (root : Option FSEntry) :
    GenResult :=
  match root with
  | none =>
    ⟨.error ("Path does not exist: " ++ root_path), [], Stats.zero⟩
  | some r =>
    let lines := rootLine cfg r :: (buildTree cfg cfg.max_depth r "").1
    let st := (buildTree cfg cfg.max_depth r "").2
    ⟨.ok lines, lines, { st with folders := st.folders + 1 }⟩

/-! ### Helper lemmas about level processing -/

theorem processLevel_files (cfg : Config) (cs : List FSEntry) :
    (processLevel cfg cs).files
      = (visibleEntries cfg cs).filter (fun e => isFileB e) := by
  unfold processLevel
  cases cfg.max_files_per_folder with
  | none => rfl
  | some n =>
    dsimp only
    split <;> rfl

theorem processLevel_dirs (cfg : Config) (cs : List FSEntry) :
    (processLevel cfg cs).dirs
      = (visibleEntries cfg cs).filter (fun e => isDirB e) := by
  unfold processLevel
  cases cfg.max_files_per_folder with
  | none => rfl
  | some n =>
    dsimp only
    split <;> rfl

theorem processLevel_truncates (cfg : Config) (cs : List FSEntry) (N : Nat)
    (h : cfg.max_files_per_folder = some N) (h0 : 0 < N)
    (hK : N < (processLevel cfg cs).files.length) :
    (processLevel cfg cs).filesTruncated = true ∧
    (processLevel cfg cs).displayedFiles = (processLevel cfg cs).files.take N ∧
    (processLevel cfg cs).hiddenCount = (processLevel cfg cs).files.length - N := by
  rw [processLevel_files] at hK
  unfold processLevel
  rw [h]
  dsimp only
  rw [if_pos ⟨Nat.pos_iff_ne_zero.mp h0, hK⟩]
  exact ⟨rfl, processLevel_files cfg cs ▸ rfl, processLevel_files cfg cs ▸ rfl⟩

theorem processLevel_no_truncation_of_zero (cfg : Config) (cs : List FSEntry)
    (h : cfg.max_files_per_folder = some 0) :
    (processLevel cfg cs).filesTruncated = false ∧
    (processLevel cfg cs).displayedFiles = (processLevel cfg cs).files := by
  unfold processLevel
  rw [h]
  dsimp only
  rw [if_neg (by simp)]
  exact ⟨rfl, rfl⟩

theorem filter_all {p : FSEntry → Bool} (l : List FSEntry) :
    (l.filter p).all p = true := by
  simp only [List.all_eq_true]
  intro e he
  exact (List.mem_filter.mp he).2

theorem take_all {p : FSEntry → Bool} (l : List FSEntry) (n : Nat)
    (h : l.all p = true) : (l.take n).all p = true := by
  simp only [List.all_eq_true] at h ⊢
  intro e he
  exact h e (List.take_subset n l he)

theorem processLevel_displayed_all_files (cfg : Config) (cs : List FSEntry) :
    (processLevel cfg cs).displayedFiles.all (fun e => isFileB e) = true := by
  unfold processLevel
  cases cfg.max_files_per_folder with
  | none => exact filter_all _
  | some n =>
    dsimp only
    split
    · exact take_all _ _ (filter_all _)
    · exact filter_all _

theorem processLevel_dirs_all_dirs (cfg : Config) (cs : List FSEntry) :
    (processLevel cfg cs).dirs.all (fun e => isDirB e) = true := by
  rw [processLevel_dirs]
  exact filter_all _

/-! ### Helper lemmas about the display loop -/

theorem loop_append (cfg : Config) (recur : FSEntry → String → List String × Stats)
    (trunc : Bool) (pre : String) (ds fs : List FSEntry) :
    (build_tree_loop cfg recur trunc pre (ds ++ fs)).1
      = (build_tree_loop cfg recur (trunc || !fs.isEmpty) pre ds).1
        ++ (build_tree_loop cfg recur trunc pre fs).1 ∧
    (build_tree_loop cfg recur trunc pre (ds ++ fs)).2
      = Stats.add (build_tree_loop cfg recur (trunc || !fs.isEmpty) pre ds).2
          (build_tree_loop cfg recur trunc pre fs).2 := by
  induction ds with
  | nil =>
    simp [build_tree_loop, Stats.zero_add]
  | cons d ds ih =>
    have hlast : ((ds ++ fs).isEmpty && !trunc)
        = (ds.isEmpty && !(trunc || !fs.isEmpty)) := by
      cases fs <;> cases ds <;> simp
    simp only [List.cons_append, build_tree_loop, List.append_eq, hlast]
    refine ⟨?_, ?_⟩
    · simp only [ih.1, List.append_assoc]
    · simp only [ih.2, Stats.add_assoc]

theorem loop_files (cfg : Config) (recur : FSEntry → String → List String × Stats)
    (trunc : Bool) (pre : String) (fs : List FSEntry)
    (h : fs.all (fun e => isFileB e) = true) :
    (build_tree_loop cfg recur trunc pre fs).1.length = fs.length ∧
    (build_tree_loop cfg recur trunc pre fs).2.folders = 0 ∧
    (build_tree_loop cfg recur trunc pre fs).2.truncated_folders = 0 ∧
    (build_tree_loop cfg recur trunc pre fs).2.files = fs.length := by
  induction fs with
  | nil => simp [build_tree_loop, Stats.zero]
  | cons e es ih =>
    simp only [List.all_cons, Bool.and_eq_true] at h
    obtain ⟨he, hes⟩ := h
    obtain ⟨ih1, ih2, ih3, ih4⟩ := ih hes
    cases e with
    | dir n ok cs => simp [isFileB] at he
    | file n sz =>
      simp [build_tree_loop, isDirB, entryStats, Stats.add, Stats.zero,
        ih1, ih2, ih3, ih4]
      omega

/-- The sum of the three statistics counters that correspond to line kinds
(the byte total does not count lines). -/
def statsSum (s : Stats) : Nat := s.folders + s.files + s.truncated_folders

theorem loop_balance (cfg : Config) (recur : FSEntry → String → List String × Stats)
    (hr : ∀ e pre, (recur e pre).1.length = statsSum (recur e pre).2)
    (trunc : Bool) (pre : String) (es : List FSEntry) :
    (build_tree_loop cfg recur trunc pre es).1.length
      = statsSum (build_tree_loop cfg recur trunc pre es).2 := by
  induction es with
  | nil => simp [build_tree_loop, statsSum, Stats.zero]
  | cons e es ih =>
    cases e with
    | file n sz =>
      simp [build_tree_loop, isDirB, entryStats, statsSum, Stats.add,
        Stats.zero, List.length_append] at ih ⊢
      omega
    | dir n ok cs =>
      have h := hr (.dir n ok cs)
        (pre ++ (if es.isEmpty && !trunc then cfg.style.space else cfg.style.vertical))
      simp [build_tree_loop, isDirB, entryStats, statsSum, Stats.add,
        List.length_append] at ih h ⊢
      omega

theorem tree_balance (cfg : Config) : ∀ (f : Nat) (e : FSEntry) (pre : String),
    (buildTree cfg f e pre).1.length = statsSum (buildTree cfg f e pre).2 := by
  intro f
  induction f with
  | zero => intro e pre; simp [buildTree, statsSum, Stats.zero]
  | succ f ih =>
    intro e pre
    simp only [buildTree]
    cases h : listChildren e with
    | none => simp [statsSum, Stats.zero]
    | some cs =>
      dsimp only
      have hb := loop_balance cfg (buildTree cfg f) ih
        (processLevel cfg cs).filesTruncated pre (processLevel cfg cs).toShow
      split
      · simp only [List.length_append, List.length_singleton, statsSum] at hb ⊢
        omega
      · exact hb

theorem loop_trunc_zero (cfg : Config)
    (recur : FSEntry → String → List String × Stats)
    (hr : ∀ e pre, (recur e pre).2.truncated_folders = 0)
    (trunc : Bool) (pre : String) (es : List FSEntry) :
    (build_tree_loop cfg recur trunc pre es).2.truncated_folders = 0 := by
  induction es with
  | nil => simp [build_tree_loop, Stats.zero]
  | cons e es ih =>
    cases e with
    | file n sz =>
      simp [build_tree_loop, isDirB, entryStats, Stats.add, Stats.zero, ih]
    | dir n ok cs =>
      simp [build_tree_loop, isDirB, entryStats, Stats.add, hr, ih]

theorem tree_trunc_zero (cfg : Config) (h : cfg.max_files_per_folder = some 0) :
    ∀ (f : Nat) (e : FSEntry) (pre : String),
    (buildTree cfg f e pre).2.truncated_folders = 0 := by
  intro f
  induction f with
  | zero => intro e pre; simp [buildTree, Stats.zero]
  | succ f ih =>
    intro e pre
    simp only [buildTree]
    cases hc : listChildren e with
    | none => simp [Stats.zero]
    | some cs =>
      dsimp only
      rw [(processLevel_no_truncation_of_zero cfg cs h).1]
      simp only [Bool.false_eq_true, if_false]
      exact loop_trunc_zero cfg (buildTree cfg f) ih _ pre _

/-- One display line per entry, with no recursion into subdirectories:
what the loop of `_build_tree` emits when the depth budget of the child
calls is exhausted. -/
def levelLines (cfg : Config) (pre : String) (trunc : Bool) : List FSEntry → List String
  | [] => []
  | e :: rest => lineFor cfg pre (rest.isEmpty && !trunc) e :: levelLines cfg pre trunc rest

theorem loop_no_recursion_lines (cfg : Config)
    (recur : FSEntry → String → List String × Stats)
    (hr : ∀ e p, recur e p = ([], Stats.zero)) (trunc : Bool) (pre : String)
    (es : List FSEntry) :
    (build_tree_loop cfg recur trunc pre es).1
      = levelLines cfg pre trunc es := by
  induction es with
  | nil => rfl
  | cons e es ih =>
    simp [build_tree_loop, levelLines, hr, ih]

theorem loop_fuel_zero_lines (cfg : Config) (trunc : Bool) (pre : String)
    (es : List FSEntry) :
    (build_tree_loop cfg (buildTree cfg 0) trunc pre es).1
      = levelLines cfg pre trunc es :=
  loop_no_recursion_lines cfg _ (fun e p => by simp [buildTree]) trunc pre es

theorem mem_of_mem_visibleEntries (cfg : Config) (cs : List FSEntry) (e : FSEntry)
    (h : e ∈ visibleEntries cfg cs) : e ∈ cs := by
  unfold visibleEntries sortEntries at h
  dsimp only at h
  have h2 := (List.perm_insertionSort _ _).mem_iff.mp h
  have h3 := (List.mem_filter.mp h2).1
  cases hsh : cfg.show_hidden
  · rw [hsh] at h3
    simp only [Bool.false_eq_true, if_false] at h3
    exact (List.mem_filter.mp h3).1
  · rw [hsh] at h3
    simpa using h3

theorem processLevel_displayed_subset (cfg : Config) (cs : List FSEntry) :
    (processLevel cfg cs).displayedFiles ⊆ (processLevel cfg cs).files := by
  unfold processLevel
  cases cfg.max_files_per_folder with
  | none => exact fun _ h => h
  | some n =>
    dsimp only
    split
    · exact List.take_subset _ _
    · exact fun _ h => h

theorem processLevel_toShow_mem (cfg : Config) (cs : List FSEntry) (e : FSEntry)
    (h : e ∈ (processLevel cfg cs).toShow) : e ∈ cs := by
  unfold Level.toShow at h
  rcases List.mem_append.mp h with h | h
  · rw [processLevel_dirs] at h
    exact mem_of_mem_visibleEntries _ _ _ (List.mem_filter.mp h).1
  · have hf := processLevel_displayed_subset cfg cs h
    rw [processLevel_files] at hf
    exact mem_of_mem_visibleEntries _ _ _ (List.mem_filter.mp hf).1

/-! ### Characterization of the format_size unit loop -/

theorem size_loop_spec (s : Nat) :
    size_loop 5 s 0 = if s < 1024 then 0 else if s < 1048576 then 1
      else if s < 1073741824 then 2 else if s < 1099511627776 then 3 else 4 := by
  have e1 : s / 1024 / 1024 = s / 1048576 := by
    rw [Nat.div_div_eq_div_mul]
  have e2 : s / 1048576 / 1024 = s / 1073741824 := by
    rw [Nat.div_div_eq_div_mul]
  have e3 : s / 1073741824 / 1024 = s / 1099511627776 := by
    rw [Nat.div_div_eq_div_mul]
  have g0 : (1024 ≤ s) ↔ ¬ s < 1024 := by omega
  have g1 : (1024 ≤ s / 1024) ↔ 1048576 ≤ s := by
    rw [Nat.le_div_iff_mul_le (by norm_num : 0 < 1024)]
  have g2 : (1024 ≤ s / 1048576) ↔ 1073741824 ≤ s := by
    rw [Nat.le_div_iff_mul_le (by norm_num : 0 < 1048576)]
  have g3 : (1024 ≤ s / 1073741824) ↔ 1099511627776 ≤ s := by
    rw [Nat.le_div_iff_mul_le (by norm_num : 0 < 1073741824)]
  by_cases c1 : s < 1024
  · have n1 : ¬ 1024 ≤ s := by omega
    simp [size_loop, c1, n1]
  · by_cases c2 : s < 1048576
    · have y1 : 1024 ≤ s := by omega
      have n2 : ¬ 1024 ≤ s / 1024 := by rw [g1]; omega
      simp [size_loop, c1, c2, y1, n2]
    · by_cases c3 : s < 1073741824
      · have y1 : 1024 ≤ s := by omega
        have y2 : 1024 ≤ s / 1024 := by rw [g1]; omega
        have n3 : ¬ 1024 ≤ s / 1024 / 1024 := by rw [e1, g2]; omega
        simp [size_loop, c1, c2, c3, y1, y2, n3]
      · by_cases c4 : s < 1099511627776
        · have y1 : 1024 ≤ s := by omega
          have y2 : 1024 ≤ s / 1024 := by rw [g1]; omega
          have y3 : 1024 ≤ s / 1024 / 1024 := by rw [e1, g2]; omega
          have n4 : ¬ 1024 ≤ s / 1024 / 1024 / 1024 := by rw [e1, e2, g3]; omega
          simp [size_loop, c1, c2, c3, c4, y1, y2, y3, n4]
        · have y1 : 1024 ≤ s := by omega
          have y2 : 1024 ≤ s / 1024 := by rw [g1]; omega
          have y3 : 1024 ≤ s / 1024 / 1024 := by rw [e1, g2]; omega
          have y4 : 1024 ≤ s / 1024 / 1024 / 1024 := by rw [e1, e2, g3]; omega
          simp [size_loop, c1, c2, c3, c4, y1, y2, y3, y4]

/-! ### Concrete configurations and trees used by the claims -/

/-- The default configuration of the command line: simple style and icons,
depth 3, no filters. -/
def simpleBase : Config :=
  { style := simpleStyle, icon_set := SIMPLE_ICONS, max_depth := 3,
    max_files_per_folder := none, show_size := false, show_hidden := false,
    sort_dirs_first := true, include_categories := none,
    exclude_patterns := none }

/-- The configuration of the spec scenario: max_depth=3,
max_files_per_folder=2, sort_dirs_first=true. -/
def scenarioCfg : Config := { simpleBase with max_files_per_folder := some 2 }

/-- The filesystem of the spec scenario: a root holding src/ with
a.py, b.py, c.py, plus notes.md. -/
def scenarioRoot : FSEntry :=
  .dir "root" true
    [.dir "src" true [.file "a.py" 0, .file "b.py" 0, .file "c.py" 0],
     .file "notes.md" 0]

/-- A configuration with the per-folder file limit set to 0. -/
def cfgLimit0 : Config := { simpleBase with max_files_per_folder := some 0 }

/-- A configuration with the per-folder file limit set to 1. -/
def cfgLimit1 : Config := { simpleBase with max_files_per_folder := some 1 }

/-- A configuration with max_depth = 1. -/
def cfgDepth1 : Config := { simpleBase with max_depth := 1 }

/-- The root line plus the lines of the root's immediate children with no
recursion: the whole output below the root when the depth budget is 1. -/
def topLevelLines (cfg : Config) (root : FSEntry) : List String :=
  match listChildren root with
  | none => []
  | some cs =>
    let L := processLevel cfg cs
    levelLines cfg "" L.filesTruncated L.toShow ++
      (if L.filesTruncated then [truncLine cfg "" L.toShow L.hiddenCount] else [])

/-! ### The claims -/

/-- C1: in the spec scenario (root holding src/ with a.py, b.py, c.py plus
notes.md, max_depth=3, max_files_per_folder=2, sort_dirs_first=true) the
statistics returned by generate_tree are folders=2, files=3,
truncated_folders=1, and the lines are the root, src/ as junction, the two
displayed .py files, the truncation marker, and notes.md as corner.  (The
files counter 3 consists of the two displayed .py files plus notes.md; the
truncated c.py is not counted.) -/
theorem C1_scenario_stats :
    (generate_tree scenarioCfg "root" (some scenarioRoot)).stats
      = { folders := 2, files := 3, total_size := 0, truncated_folders := 1 } ∧
    (generate_tree scenarioCfg "root" (some scenarioRoot)).tree_lines
      = ["📂 root/", "├─ 📂 src/", "│ ├─ P a.py", "│ ├─ P b.py",
         "│ └─ ... (1 more files)", "└─ M notes.md"] := by
  constructor
  · decide
  · decide

/-- Unfolding of `buildTree` at positive depth budget on an accessible
directory. -/
theorem buildTree_succ (cfg : Config) (f : Nat) (name : String)
    (cs : List FSEntry) (pre : String) :
    buildTree cfg (f + 1) (.dir name true cs) pre
      = (if (processLevel cfg cs).filesTruncated then
           ((build_tree_loop cfg (buildTree cfg f)
               (processLevel cfg cs).filesTruncated pre
               (processLevel cfg cs).toShow).1
              ++ [truncLine cfg pre (processLevel cfg cs).toShow
                    (processLevel cfg cs).hiddenCount],
            { (build_tree_loop cfg (buildTree cfg f)
                 (processLevel cfg cs).filesTruncated pre
                 (processLevel cfg cs).toShow).2 with
              truncated_folders :=
                (build_tree_loop cfg (buildTree cfg f)
                   (processLevel cfg cs).filesTruncated pre
                   (processLevel cfg cs).toShow).2.truncated_folders + 1 })
         else build_tree_loop cfg (buildTree cfg f)
                (processLevel cfg cs).filesTruncated pre
                (processLevel cfg cs).toShow) := by
  simp [buildTree, listChildren]

/-- C2 counterexample: the claim quantifies over every configured limit N
with N smaller than the file count K, which includes N = 0; but with the
limit set to 0 and one visible file the code emits one file line, no
truncation marker, and leaves the truncated-folder counter at 0 (the Python
guard tests the limit for truthiness, and 0 is falsy). -/
theorem C2_zero_limit_counterexample :
    cfgLimit0.max_files_per_folder = some 0 ∧
    (processLevel cfgLimit0 [.file "x.txt" 5]).files.length = 1 ∧
    buildTree cfgLimit0 1 (.dir "d" true [.file "x.txt" 5]) ""
      = (["└─ T x.txt"], ⟨0, 1, 5, 0⟩) := by
  refine ⟨rfl, by decide, by decide⟩

/-- C2 (amended: the limit N must additionally be at least 1): a directory
visited with remaining depth budget whose level holds K visible files, with
the limit set to N, 0 < N < K, emits the directory block, then exactly N
file lines (the loop on the N displayed files emits one line each), then
exactly one truncation-marker line stating K - N, and the truncated-folder
counter of the call exceeds that of the subdirectory part by exactly 1. -/
theorem C2_truncation_law (cfg : Config) (f : Nat) (pre name : String)
    (cs : List FSEntry) (N : Nat)
    (h : cfg.max_files_per_folder = some N) (h0 : 0 < N)
    (hK : N < (processLevel cfg cs).files.length) :
    (processLevel cfg cs).displayedFiles.length = N ∧
    (processLevel cfg cs).filesTruncated = true ∧
    (processLevel cfg cs).hiddenCount = (processLevel cfg cs).files.length - N ∧
    (buildTree cfg (f + 1) (.dir name true cs) pre).1
      = (build_tree_loop cfg (buildTree cfg f) true pre (processLevel cfg cs).dirs).1
        ++ (build_tree_loop cfg (buildTree cfg f) true pre
              (processLevel cfg cs).displayedFiles).1
        ++ [truncLine cfg pre (processLevel cfg cs).toShow
              (processLevel cfg cs).hiddenCount] ∧
    (build_tree_loop cfg (buildTree cfg f) true pre
        (processLevel cfg cs).displayedFiles).1.length = N ∧
    (buildTree cfg (f + 1) (.dir name true cs) pre).2.truncated_folders
      = (build_tree_loop cfg (buildTree cfg f) true pre
          (processLevel cfg cs).dirs).2.truncated_folders + 1 := by
  obtain ⟨ht, hd, hh⟩ := processLevel_truncates cfg cs N h h0 hK
  have hlen : (processLevel cfg cs).displayedFiles.length = N := by
    rw [hd, List.length_take]
    omega
  have hall := processLevel_displayed_all_files cfg cs
  have hfl := loop_files cfg (buildTree cfg f) true pre _ hall
  have happ := loop_append cfg (buildTree cfg f) true pre
    (processLevel cfg cs).dirs (processLevel cfg cs).displayedFiles
  have hshow : (processLevel cfg cs).toShow
      = (processLevel cfg cs).dirs ++ (processLevel cfg cs).displayedFiles := rfl
  have hbt := buildTree_succ cfg f name cs pre
  rw [ht] at hbt
  simp only [if_true] at hbt
  refine ⟨hlen, ht, hh, ?_, ?_, ?_⟩
  · rw [hbt]
    dsimp only
    rw [hshow, happ.1]
    simp [List.append_assoc]
  · rw [hfl.1, hlen]
  · rw [hbt]
    dsimp only
    rw [hshow, happ.2]
    simp [Stats.add, hfl.2.2.1]

/-- C2 witness: the amended truncation law applied at the concrete
configuration with limit 1 and a directory holding two files. -/
theorem C2_truncation_law_witness :
    (processLevel cfgLimit1 [FSEntry.file "x.txt" 0, FSEntry.file "y.txt" 0]).displayedFiles.length = 1 ∧
    (processLevel cfgLimit1 [FSEntry.file "x.txt" 0, FSEntry.file "y.txt" 0]).filesTruncated = true ∧
    (processLevel cfgLimit1 [FSEntry.file "x.txt" 0, FSEntry.file "y.txt" 0]).hiddenCount
      = (processLevel cfgLimit1 [FSEntry.file "x.txt" 0, FSEntry.file "y.txt" 0]).files.length - 1 ∧
    (buildTree cfgLimit1 (0 + 1) (.dir "d" true [FSEntry.file "x.txt" 0, FSEntry.file "y.txt" 0]) "").1
      = (build_tree_loop cfgLimit1 (buildTree cfgLimit1 0) true ""
          (processLevel cfgLimit1 [FSEntry.file "x.txt" 0, FSEntry.file "y.txt" 0]).dirs).1
        ++ (build_tree_loop cfgLimit1 (buildTree cfgLimit1 0) true ""
              (processLevel cfgLimit1 [FSEntry.file "x.txt" 0, FSEntry.file "y.txt" 0]).displayedFiles).1
        ++ [truncLine cfgLimit1 ""
              (processLevel cfgLimit1 [FSEntry.file "x.txt" 0, FSEntry.file "y.txt" 0]).toShow
              (processLevel cfgLimit1 [FSEntry.file "x.txt" 0, FSEntry.file "y.txt" 0]).hiddenCount] ∧
    (build_tree_loop cfgLimit1 (buildTree cfgLimit1 0) true ""
        (processLevel cfgLimit1 [FSEntry.file "x.txt" 0, FSEntry.file "y.txt" 0]).displayedFiles).1.length = 1 ∧
    (buildTree cfgLimit1 (0 + 1) (.dir "d" true [FSEntry.file "x.txt" 0, FSEntry.file "y.txt" 0]) "").2.truncated_folders
      = (build_tree_loop cfgLimit1 (buildTree cfgLimit1 0) true ""
          (processLevel cfgLimit1 [FSEntry.file "x.txt" 0, FSEntry.file "y.txt" 0]).dirs).2.truncated_folders + 1 :=
  C2_truncation_law cfgLimit1 0 "" "d"
    [FSEntry.file "x.txt" 0, FSEntry.file "y.txt" 0] 1 rfl (by decide) (by decide)

/-- C3: at every level and for both values of sort_dirs_first, the shown
entries are the directories followed by the displayed files, and the lines
the loop emits decompose accordingly: every line emitted for a
subdirectory of the level precedes every line emitted for a file of the
level. -/
theorem C3_dirs_before_files (cfg : Config) (f : Nat) (pre : String)
    (cs : List FSEntry) :
    (processLevel cfg cs).toShow
      = (processLevel cfg cs).dirs ++ (processLevel cfg cs).displayedFiles ∧
    (processLevel cfg cs).dirs.all (fun e => isDirB e) = true ∧
    (processLevel cfg cs).displayedFiles.all (fun e => isFileB e) = true ∧
    (build_tree_loop cfg (buildTree cfg f) (processLevel cfg cs).filesTruncated pre
        (processLevel cfg cs).toShow).1
      = (build_tree_loop cfg (buildTree cfg f)
            ((processLevel cfg cs).filesTruncated
              || !(processLevel cfg cs).displayedFiles.isEmpty) pre
            (processLevel cfg cs).dirs).1
        ++ (build_tree_loop cfg (buildTree cfg f)
              (processLevel cfg cs).filesTruncated pre
              (processLevel cfg cs).displayedFiles).1 :=
  ⟨rfl, processLevel_dirs_all_dirs cfg cs, processLevel_displayed_all_files cfg cs,
   (loop_append cfg _ _ pre _ _).1⟩

/-- C4: with max_depth = 1 recursion at depth 1 emits nothing, the output is
the root line followed by exactly one line per immediate visible child of
the root (plus possibly one truncation marker), and every shown entry is an
immediate child of the root, so no grandchild line ever appears. -/
theorem C4_depth_bound (cfg : Config) (h : cfg.max_depth = 1) (p : String)
    (root e : FSEntry) (pre : String) :
    buildTree cfg 0 e pre = ([], Stats.zero) ∧
    (generate_tree cfg p (some root)).tree_lines
      = rootLine cfg root :: topLevelLines cfg root ∧
    ((processLevel cfg ((listChildren root).getD [])).toShow).all
      (fun x => decide (x ∈ (listChildren root).getD [])) = true := by
  refine ⟨rfl, ?_, ?_⟩
  · unfold generate_tree
    rw [h]
    unfold topLevelLines
    cases hc : listChildren root with
    | none =>
      simp [buildTree, hc]
    | some cs =>
      simp only [buildTree, hc]
      split
      · simp [loop_no_recursion_lines cfg (fun _ _ => ([], Stats.zero)) (fun _ _ => rfl)]
      · simp [loop_no_recursion_lines cfg (fun _ _ => ([], Stats.zero)) (fun _ _ => rfl)]
  · rw [List.all_eq_true]
    intro x hx
    exact decide_eq_true (processLevel_toShow_mem cfg _ x hx)

/-- C4 witness: the depth bound applied to a concrete tree with a grandchild
g.txt, which indeed produces only the root line and the child line. -/
theorem C4_depth_bound_witness :
    buildTree cfgDepth1 0 (FSEntry.file "q" 0) "" = ([], Stats.zero) ∧
    (generate_tree cfgDepth1 "r"
        (some (FSEntry.dir "r" true
          [FSEntry.dir "a" true [FSEntry.file "g.txt" 7]]))).tree_lines
      = ["📂 r/", "└─ + a/"] ∧
    ((processLevel cfgDepth1 ((listChildren (FSEntry.dir "r" true
        [FSEntry.dir "a" true [FSEntry.file "g.txt" 7]])).getD [])).toShow).all
      (fun x => decide (x ∈ (listChildren (FSEntry.dir "r" true
        [FSEntry.dir "a" true [FSEntry.file "g.txt" 7]])).getD [])) = true :=
  C4_depth_bound cfgDepth1 rfl "r"
    (FSEntry.dir "r" true [FSEntry.dir "a" true [FSEntry.file "g.txt" 7]])
    (FSEntry.file "q" 0) ""

/-- C5: any entry whose name contains a configured exclude pattern as a
substring is rejected by should_include_file, whatever the inclusion
categories say. -/
theorem C5_exclusion_wins (cats : Option (List String)) (ps : List String)
    (e : FSEntry) (p : String) (hp : p ∈ ps)
    (hsub : isSubstring p e.name = true) :
    should_include_file cats (some ps) e = false := by
  have hc : ((some ps : Option (List String)).getD []).any
      (fun q => isSubstring q e.name) = true :=
    List.any_eq_true.mpr ⟨p, hp, hsub⟩
  unfold should_include_file
  rw [if_pos hc]

/-- C5 witness: test.py matches the code inclusion category by extension,
yet the exclude pattern test rejects it. -/
theorem C5_exclusion_wins_witness :
    (strLower (pathSuffix "test.py") ∈ file_categories "code") ∧
    should_include_file (some ["code"]) (some ["test"])
      (FSEntry.file "test.py" 3) = false :=
  ⟨by decide,
   C5_exclusion_wins (some ["code"]) ["test"] (FSEntry.file "test.py" 3)
     "test" (by decide) (by decide)⟩

/-- C6: when the root path does not exist, generate_tree raises
FileNotFoundError right after resetting the state: no tree lines are
produced and the statistics stay at their reset values. -/
theorem C6_notfound (cfg : Config) (p : String) :
    (generate_tree cfg p none).result
      = .error ("Path does not exist: " ++ p) ∧
    (generate_tree cfg p none).tree_lines = [] ∧
    (generate_tree cfg p none).stats
      = { folders := 0, files := 0, total_size := 0, truncated_folders := 0 } :=
  ⟨rfl, rfl, rfl⟩

/-- C7 counterexample: the claim picks the largest unit whose scaled value
is below 1024, but at 1536 bytes the code prints KB although the larger
unit MB (and GB, TB) also scales 1536 below 1024, so KB is not that largest
unit; moreover at 1024^5 bytes no unit scales the value below 1024 at all,
and the code prints 1024.0 TB. -/
theorem C7_largest_unit_counterexample :
    format_size 1536 = "1.5 KB" ∧ (1536 : Nat) < 1024 ^ 3 ∧
    format_size (1024 ^ 5) = "1024.0 TB" ∧
    ¬ ((1024 : Nat) ^ 5 / 1024 ^ 4 < 1024) :=
  ⟨by decide, by norm_num, by decide, by norm_num⟩

/-- C7 (amended: the chosen unit is the smallest one among B, KB, MB, GB,
TB whose scaled value falls below 1024, and this unit exists only for byte
counts under 1024 TB, beyond which TB is kept with a value of 1024 or
more): for 0 < s < 1024^5 the unit index chosen by the loop satisfies
s < 1024^(i+1) (scaled value below 1024) and is minimal with that property
(i = 0 or 1024^i ≤ s); the rendering keeps one decimal digit, and the
spec's concrete examples hold. -/
theorem C7_format_size (s : Nat) (h1 : 0 < s) (h2 : s < 1024 ^ 5) :
    s < 1024 ^ (size_loop 5 s 0 + 1) ∧
    (size_loop 5 s 0 = 0 ∨ 1024 ^ size_loop 5 s 0 ≤ s) ∧
    format_size 0 = "0 B" ∧ format_size 1536 = "1.5 KB" ∧
    format_size 1073741824 = "1.0 GB" := by
  have hs := size_loop_spec s
  have hp : (1024 : Nat) ^ 5 = 1125899906842624 := by norm_num
  rw [hp] at h2
  refine ⟨?_, ?_, by decide, by decide, by decide⟩
  · rw [hs]
    split_ifs <;> norm_num <;> omega
  · rw [hs]
    split_ifs <;> norm_num <;> omega

/-- C7 witness: the amended statement applied at 1536 bytes. -/
theorem C7_format_size_witness :
    1536 < 1024 ^ (size_loop 5 1536 0 + 1) ∧
    (size_loop 5 1536 0 = 0 ∨ 1024 ^ size_loop 5 1536 0 ≤ 1536) ∧
    format_size 0 = "0 B" ∧ format_size 1536 = "1.5 KB" ∧
    format_size 1073741824 = "1.0 GB" :=
  C7_format_size 1536 (by decide) (by norm_num)

/-- C8: a directory whose enumeration fails contributes no lines and no
statistics from its subtree; in the parent's loop it still gets its own
line and the loop continues with the remaining entries unchanged; and
generate_tree on an existing root always returns its lines, never an
error. -/
theorem C8_access_error_recovery (cfg : Config) (f : Nat) (name : String)
    (cs : List FSEntry) (pre : String) (trunc : Bool) (rest : List FSEntry)
    (p : String) (root : FSEntry) :
    buildTree cfg f (.dir name false cs) pre = ([], Stats.zero) ∧
    (build_tree_loop cfg (buildTree cfg f) trunc pre (.dir name false cs :: rest)).1
      = lineFor cfg pre (rest.isEmpty && !trunc) (.dir name false cs)
        :: (build_tree_loop cfg (buildTree cfg f) trunc pre rest).1 ∧
    (generate_tree cfg p (some root)).result
      = .ok (generate_tree cfg p (some root)).tree_lines := by
  have h1 : ∀ pre', buildTree cfg f (.dir name false cs) pre' = ([], Stats.zero) := by
    intro pre'
    cases f <;> simp [buildTree, listChildren]
  refine ⟨h1 pre, ?_, rfl⟩
  simp [build_tree_loop, isDirB, h1]

/-- C9: after a successful generate_tree call the number of returned lines
equals folders + files + truncated_folders: every line is exactly one of a
directory line (root included), a file line, or a truncation marker. -/
theorem C9_line_count_invariant (cfg : Config) (p : String) (root : FSEntry) :
    (generate_tree cfg p (some root)).tree_lines.length
      = (generate_tree cfg p (some root)).stats.folders
        + (generate_tree cfg p (some root)).stats.files
        + (generate_tree cfg p (some root)).stats.truncated_folders := by
  have hb := tree_balance cfg cfg.max_depth root ""
  simp only [generate_tree, statsSum] at hb ⊢
  simp only [List.length_cons]
  omega

/-- C10: with max_files_per_folder set to 0 the truthiness guard never
fires: no level is truncated, all visible files are displayed, the
truncated-folder counter stays 0, and every emitted line is a folder or
file line (no truncation marker exists). -/
theorem C10_zero_limit_no_truncation (cfg : Config)
    (h : cfg.max_files_per_folder = some 0) (cs : List FSEntry) (f : Nat)
    (e : FSEntry) (pre : String) (p : String) (root : FSEntry) :
    (processLevel cfg cs).filesTruncated = false ∧
    (processLevel cfg cs).displayedFiles = (processLevel cfg cs).files ∧
    (buildTree cfg f e pre).2.truncated_folders = 0 ∧
    (buildTree cfg f e pre).1.length
      = (buildTree cfg f e pre).2.folders + (buildTree cfg f e pre).2.files ∧
    (generate_tree cfg p (some root)).stats.truncated_folders = 0 := by
  obtain ⟨h1, h2⟩ := processLevel_no_truncation_of_zero cfg cs h
  have h3 := tree_trunc_zero cfg h f e pre
  have h4 := tree_balance cfg f e pre
  have h5 := tree_trunc_zero cfg h cfg.max_depth root ""
  refine ⟨h1, h2, h3, ?_, ?_⟩
  · simp only [statsSum, h3] at h4
    omega
  · simp [generate_tree, h5]

/-- C10 witness: the zero-limit behavior at a concrete directory of two
files. -/
theorem C10_zero_limit_no_truncation_witness :
    (processLevel cfgLimit0 [FSEntry.file "x.txt" 5, FSEntry.file "y.txt" 6]).filesTruncated = false ∧
    (processLevel cfgLimit0 [FSEntry.file "x.txt" 5, FSEntry.file "y.txt" 6]).displayedFiles
      = (processLevel cfgLimit0 [FSEntry.file "x.txt" 5, FSEntry.file "y.txt" 6]).files ∧
    (buildTree cfgLimit0 1 (FSEntry.dir "d" true [FSEntry.file "x.txt" 5, FSEntry.file "y.txt" 6]) "").2.truncated_folders = 0 ∧
    (buildTree cfgLimit0 1 (FSEntry.dir "d" true [FSEntry.file "x.txt" 5, FSEntry.file "y.txt" 6]) "").1.length
      = (buildTree cfgLimit0 1 (FSEntry.dir "d" true [FSEntry.file "x.txt" 5, FSEntry.file "y.txt" 6]) "").2.folders
        + (buildTree cfgLimit0 1 (FSEntry.dir "d" true [FSEntry.file "x.txt" 5, FSEntry.file "y.txt" 6]) "").2.files ∧
    (generate_tree cfgLimit0 "d"
        (some (FSEntry.dir "d" true [FSEntry.file "x.txt" 5, FSEntry.file "y.txt" 6]))).stats.truncated_folders = 0 :=
  C10_zero_limit_no_truncation cfgLimit0 rfl
    [FSEntry.file "x.txt" 5, FSEntry.file "y.txt" 6] 1
    (FSEntry.dir "d" true [FSEntry.file "x.txt" 5, FSEntry.file "y.txt" 6]) "" "d"
    (FSEntry.dir "d" true [FSEntry.file "x.txt" 5, FSEntry.file "y.txt" 6])

end FolderTree
